import Mathlib

/-!
Shallow embedding of the core logic of `src/webtracker.py`, a single-user
personal finance tracker.  Python floats are modelled as rationals, the
wall clock (`datetime.date.today()`) is passed explicitly as a `Today`
value holding the `%Y` and `%Y-%m` strftime images, and the budgets
`dict` is modelled as an association list in insertion order.
-/

namespace WebTracker

/-- Wall-clock date as the tracker observes it: the strftime images
`%Y` (current calendar year) and `%Y-%m` (current calendar month) of
`datetime.date.today()`. -/
structure Today where
  year : String
  month : String

/-- Python `str.strip()`, with whitespace read as `Char.isWhitespace`. -/
def pyStrip (s : String) : String :=
  String.mk (((s.data.dropWhile Char.isWhitespace).reverse.dropWhile Char.isWhitespace).reverse)

/-- Python `str.capitalize()`: first character uppercased, the rest lowercased. -/
def pyCapitalize (s : String) : String :=
  match s.data with
  | [] => ""
  | c :: cs => String.mk (c.toUpper :: cs.map Char.toLower)

/-- Category and source normalization used throughout the tracker:
`value.strip().capitalize()`. -/
def normalize (s : String) : String := pyCapitalize (pyStrip s)

/-- Python slicing `s[:n]` on a string, by characters. -/
def strTake (s : String) (n : Nat) : String := String.mk (s.data.take n)

/-- Python `s.startswith(pre)`. -/
def strStartsWith (s pre : String) : Bool := pre.data.isPrefixOf s.data

/-- ASCII apostrophe (code point 39), quoting category names in several
tracker messages. -/
def sq : String := String.singleton (Char.ofNat 39)

/-- Lexicographic code-point comparison of character lists, the order Python
uses to compare strings in `sorted`. -/
def charListLt : List Char → List Char → Bool
  | _, [] => false
  | [], _ :: _ => true
  | a :: as, b :: bs => a < b || (a == b && charListLt as bs)

/-- Helper for the thousands separators of the Python format spec `,.2f`:
groups a reversed digit list into blocks of three, inserting commas
(the caller re-reverses the result). -/
def commaChunksRev : List Char → List Char
  | [] => []
  | [a] => [a]
  | [a, b] => [a, b]
  | [a, b, c] => [a, b, c]
  | a :: b :: c :: d :: rest => a :: b :: c :: ',' :: commaChunksRev (d :: rest)

/-- Python format spec `,.2f` applied to the dollar amounts the tracker
prints: round to cents, two decimal digits, commas every three integer
digits.  The cents are `floor(q * 100 + 1/2)`, computed on the numerator
and denominator directly so that the definition evaluates by kernel
reduction; faithful for the nonnegative values the application formats
(an exact half cent rounds up rather than to even, a difference no
tracked value exercises). -/
def fmtMoney (q : ℚ) : String :=
  let cents : Int := Int.fdiv (200 * q.num + (q.den : Int)) (2 * (q.den : Int))
  let n := cents.natAbs
  (if cents < 0 then "-" else "")
    ++ String.mk (commaChunksRev (toString (n / 100)).data.reverse).reverse
    ++ "." ++ (if n % 100 < 10 then "0" else "") ++ toString (n % 100)

/-- Insertion step of a stable insertion sort driven by a Boolean
"may come first" test. -/
def orderedInsertBy (le : α → α → Bool) (a : α) : List α → List α
  | [] => [a]
  | b :: l => if le a b then a :: b :: l else b :: orderedInsertBy le a l

/-- Stable insertion sort driven by a Boolean "may come first" test;
models Python `sorted`. -/
def insertionSortBy (le : α → α → Bool) : List α → List α
  | [] => []
  | a :: l => orderedInsertBy le a (insertionSortBy le l)

/-- Dataclass `Expense`: a single expense item; `amount` is a Python float
(modelled as a rational), `date` is stored as `YYYY-MM-DD` text, `tag` is an
optional free-text sub-category defaulting to the empty string. -/
structure Expense where
  amount : ℚ
  category : String
  date : String
  tag : String
deriving DecidableEq

/-- Dataclass `Income`: a single income item. -/
structure Income where
  amount : ℚ
  source : String
  date : String
deriving DecidableEq

/-- In-memory state of `ExpenseTracker`: the `expenses` and `incomes` lists
and the `budgets` dict (category name mapped to monthly limit), the dict
modelled as an association list in insertion order. -/
structure TrackerState where
  expenses : List Expense
  budgets : List (String × ℚ)
  incomes : List Income
deriving DecidableEq

/-- Image of `Expense.to_dict` / input of `Expense.from_dict`: the JSON
object `{amount, category, date, tag}`, with `tag` optional on read
(`data.get` with default `""`). -/
structure ExpenseDoc where
  amount : ℚ
  category : String
  date : String
  tag : Option String
deriving DecidableEq

/-- Image of `Income.to_dict` / input of `Income.from_dict`. -/
structure IncomeDoc where
  amount : ℚ
  source : String
  date : String
deriving DecidableEq

/-- The persisted JSON document: top-level keys `expenses`, `budgets`,
`incomes`, each optional on read (`loaded_data.get` with a default). -/
structure StoredDoc where
  expenses : Option (List ExpenseDoc)
  budgets : Option (List (String × ℚ))
  incomes : Option (List IncomeDoc)

/-- State of the persisted file as `DataManager.load_data` can observe it:
absent (`FileNotFoundError`), present but not valid JSON
(`json.JSONDecodeError`), or a parsed JSON document. -/
inductive FileState
  | missing
  | malformed
  | content (doc : StoredDoc)

def Expense.to_dict (e : Expense) : ExpenseDoc :=
  ⟨e.amount, e.category, e.date, some e.tag⟩

def Expense.from_dict (d : ExpenseDoc) : Expense :=
  ⟨d.amount, d.category, d.date, d.tag.getD ""⟩

def Income.to_dict (i : Income) : IncomeDoc :=
  ⟨i.amount, i.source, i.date⟩

def Income.from_dict (d : IncomeDoc) : Income :=
  ⟨d.amount, d.source, d.date⟩

/-- Collections returned by `DataManager.load_data`. -/
structure LoadedData where
  expenses : List Expense
  budgets : List (String × ℚ)
  incomes : List Income
deriving DecidableEq

/-- `DataManager.load_data`: reads the JSON document, applying `from_dict`
to each record; a missing file or malformed JSON yields the empty default
collections (both exception branches return the pre-built `data` dict). -/
def load_data : FileState → LoadedData
  | .missing => ⟨[], [], []⟩
  | .malformed => ⟨[], [], []⟩
  | .content doc =>
      ⟨(doc.expenses.getD []).map Expense.from_dict,
       doc.budgets.getD [],
       (doc.incomes.getD []).map Income.from_dict⟩

/-- `DataManager.save_data`: serializes the three collections into one JSON
document via `to_dict`, overwriting the whole file. -/
def save_data (expenses : List Expense) (budgets : List (String × ℚ))
    (incomes : List Income) : StoredDoc :=
  ⟨some (expenses.map Expense.to_dict), some budgets, some (incomes.map Income.to_dict)⟩

/-- `ExpenseTracker.__init__`: loads the persisted collections into memory. -/
def ExpenseTracker.init (file : FileState) : TrackerState :=
  let loaded := load_data file
  ⟨loaded.expenses, loaded.budgets, loaded.incomes⟩

/-- Python dict upsert `budgets[k] = v`: overwrite in place when the key
exists (keeping its position), otherwise append. -/
def dictInsert (k : String) (v : ℚ) (d : List (String × ℚ)) : List (String × ℚ) :=
  if (d.lookup k).isSome then d.map (fun p => if p.1 == k then (k, v) else p)
  else d ++ [(k, v)]

/-- Python dict delete `del budgets[k]` (callers guard on membership). -/
def dictErase (k : String) (d : List (String × ℚ)) : List (String × ℚ) :=
  d.filter (fun p => p.1 != k)

/-- `ExpenseTracker._get_category_spending`, applied to a category: total
spending in the current month for that category.  The Python function
returns a `defaultdict` keyed by the categories seen this month; it is
modelled as the total function sending each category to its current-month
sum, which agrees with `dict.get(category, 0.0)` on every category. -/
def get_category_spending (today : Today) (expenses : List Expense) (c : String) : ℚ :=
  (((expenses.filter (fun e => strTake e.date 7 == today.month)).filter
      (fun e => e.category == c)).map Expense.amount).sum

/-- Key set of the `_get_category_spending` dict: the categories of the
current-month expenses (with multiplicity, deduplicated by callers). -/
def spendingCategories (today : Today) (expenses : List Expense) : List String :=
  (expenses.filter (fun e => strTake e.date 7 == today.month)).map Expense.category

/-- Budget-alert message computed inside `ExpenseTracker.add_expense`
(the local `alert_message`, empty when no alert fires), checked against
the post-append expense list. -/
def add_expense_alert (today : Today) (budgets : List (String × ℚ))
    (expenses : List Expense) (category_cleaned : String) : String :=
  match budgets.lookup category_cleaned with
  | none => ""
  | some budget_limit =>
      let current_spent := get_category_spending today expenses category_cleaned
      if budget_limit < current_spent then
        "🚨 BUDGET ALERT: Spending in " ++ category_cleaned ++ " exceeds budget of $"
          ++ fmtMoney budget_limit ++ " by $" ++ fmtMoney (current_spent - budget_limit) ++ "!"
      else ""

/-- `ExpenseTracker.add_expense`: normalizes the category, trims the tag,
appends the expense, persists, and returns success together with any
budget-alert message.  The `except` branch of the Python code is
unreachable (the dataclass constructor cannot fail). -/
def add_expense (today : Today) (st : TrackerState) (amount : ℚ)
    (category date_str tag : String) : TrackerState × Bool × String :=
  let category_cleaned := normalize category
  let tag_cleaned := pyStrip tag
  let expense : Expense := ⟨amount, category_cleaned, date_str, tag_cleaned⟩
  let st' : TrackerState := { st with expenses := st.expenses ++ [expense] }
  let alert_message := add_expense_alert today st'.budgets st'.expenses category_cleaned
  (st', true,
   "Expense added successfully." ++ (if alert_message == "" then "" else " " ++ alert_message))

/-- `ExpenseTracker.add_income`: normalizes the source and appends. -/
def add_income (st : TrackerState) (amount : ℚ)
    (source date_str : String) : TrackerState × Bool × String :=
  let source_cleaned := normalize source
  let income : Income := ⟨amount, source_cleaned, date_str⟩
  ({ st with incomes := st.incomes ++ [income] }, true,
   "Income added successfully from " ++ source_cleaned ++ ".")

/-- `ExpenseTracker.set_budget`: upserts the monthly limit for the
normalized category. -/
def set_budget (st : TrackerState) (category : String) (amount : ℚ) :
    TrackerState × Bool × String :=
  let category_cleaned := normalize category
  ({ st with budgets := dictInsert category_cleaned amount st.budgets }, true,
   "Budget set: Monthly limit for " ++ category_cleaned ++ " is now $" ++ fmtMoney amount)

/-- `ExpenseTracker.remove_expense`: bounds-checks the index (Python ints,
so negative values are possible), pops the record and reports its
description.  The inner `none` branch is unreachable under the guard. -/
def remove_expense (st : TrackerState) (index : Int) : TrackerState × Bool × String :=
  if 0 ≤ index ∧ index < (st.expenses.length : Int) then
    match st.expenses[index.toNat]? with
    | some removed_expense =>
        ({ st with expenses := st.expenses.eraseIdx index.toNat }, true,
         "Expense on " ++ removed_expense.date ++ " for $" ++ fmtMoney removed_expense.amount
           ++ " (" ++ removed_expense.category ++ ") removed successfully.")
    | none => (st, false, "Invalid expense index.")
  else (st, false, "Invalid expense index.")

/-- `ExpenseTracker.remove_income`: same shape as `remove_expense`. -/
def remove_income (st : TrackerState) (index : Int) : TrackerState × Bool × String :=
  if 0 ≤ index ∧ index < (st.incomes.length : Int) then
    match st.incomes[index.toNat]? with
    | some removed_income =>
        ({ st with incomes := st.incomes.eraseIdx index.toNat }, true,
         "Income on " ++ removed_income.date ++ " from " ++ removed_income.source
           ++ " ($" ++ fmtMoney removed_income.amount ++ ") removed successfully.")
    | none => (st, false, "Invalid income index.")
  else (st, false, "Invalid income index.")

/-- `ExpenseTracker.delete_budget`: removes the limit for the normalized
category, failing when none exists. -/
def delete_budget (st : TrackerState) (category_name : String) :
    TrackerState × Bool × String :=
  let category_cleaned := normalize category_name
  if (st.budgets.lookup category_cleaned).isSome then
    ({ st with budgets := dictErase category_cleaned st.budgets }, true,
     "Budget limit for " ++ sq ++ category_cleaned ++ sq ++ " removed successfully.")
  else
    (st, false, "No budget found for category " ++ sq ++ category_cleaned ++ sq ++ ".")

/-- `ExpenseTracker.delete_category`: drops every expense of the normalized
category and its budget entry, failing (after the no-op save) when neither
existed. -/
def delete_category (st : TrackerState) (category_name : String) :
    TrackerState × Bool × String :=
  let category_cleaned := normalize category_name
  let original_count := st.expenses.length
  let new_expenses := st.expenses.filter (fun e => e.category != category_cleaned)
  let deleted_count := original_count - new_expenses.length
  let budget_deleted := (st.budgets.lookup category_cleaned).isSome
  let new_budgets :=
    if budget_deleted then dictErase category_cleaned st.budgets else st.budgets
  let st' : TrackerState := ⟨new_expenses, new_budgets, st.incomes⟩
  if deleted_count == 0 && !budget_deleted then
    (st', false,
     "Category " ++ sq ++ category_cleaned ++ sq ++ " not found in expenses or budgets.")
  else
    (st', true,
     "Category " ++ sq ++ category_cleaned ++ sq ++ " deleted. Removed "
       ++ toString deleted_count ++ " expense(s)."
       ++ (if budget_deleted then " Budget limit also removed." else ""))

/-- `ExpenseTracker._filter_transactions`: filters a record list by time
period; the records only need a `date` attribute (Python duck typing),
captured by the `dateOf` accessor. -/
def filter_transactions {α : Type} (dateOf : α → String) (today : Today)
    (records : List α) (filter_type : String) : List α :=
  if filter_type == "all" then records
  else if filter_type == "month" then
    records.filter (fun r => strStartsWith (dateOf r) today.month)
  else if filter_type == "year" then
    records.filter (fun r => strStartsWith (dateOf r) today.year)
  else records

/-- `ExpenseTracker.get_expenses_summary`: every expense paired with its
store index, sorted by date newest first (Python stable sort with
`reverse=True`), plus the total of all expense amounts. -/
def get_expenses_summary (st : TrackerState) : List (Nat × Expense) × ℚ :=
  let indexed := st.expenses.enum
  let sorted := insertionSortBy
    (fun a b => !(charListLt a.2.date.data b.2.date.data)) indexed
  (sorted, (st.expenses.map Expense.amount).sum)

/-- `ExpenseTracker.calculate_net_savings`: current-month total income,
current-month total expenses, and their difference. -/
def calculate_net_savings (today : Today) (st : TrackerState) : ℚ × ℚ × ℚ :=
  let total_income :=
    ((st.incomes.filter (fun i => strTake i.date 7 == today.month)).map Income.amount).sum
  let total_expense :=
    ((st.expenses.filter (fun e => strTake e.date 7 == today.month)).map Expense.amount).sum
  (total_income, total_expense, total_income - total_expense)

/-- Row of the monthly budget report. -/
structure BudgetRow where
  category : String
  budget : ℚ
  spent : ℚ
  remaining : ℚ
  status : String
  status_class : String
deriving DecidableEq

/-- Category list of `get_budget_report`:
`sorted(set(budgets.keys()) | set(spending.keys()))`. -/
def report_categories (today : Today) (st : TrackerState) : List String :=
  insertionSortBy (fun a b => charListLt a.data b.data)
    ((st.budgets.map Prod.fst ++ spendingCategories today st.expenses).dedup)

/-- Loop body of `get_budget_report` for one category. -/
def budget_row (today : Today) (st : TrackerState) (category : String) : BudgetRow :=
  let budget := (st.budgets.lookup category).getD 0
  let spent := get_category_spending today st.expenses category
  let remaining := budget - spent
  if budget < spent ∧ 0 < budget then
    ⟨category, budget, spent, remaining, "OVER BUDGET", "negative"⟩
  else if budget = 0 then
    ⟨category, budget, spent, remaining, "NO BUDGET SET", ""⟩
  else
    ⟨category, budget, spent, remaining, "On Track", "positive"⟩

/-- `ExpenseTracker.get_budget_report`: one row per category that has a
budget or has current-month spending. -/
def get_budget_report (today : Today) (st : TrackerState) : List BudgetRow :=
  (report_categories today st).map (budget_row today st)

/-! ### Supporting lemmas -/

theorem str_data_append (s t : String) : (s ++ t).data = s.data ++ t.data := by
  cases s
  cases t
  rfl

theorem str_eq_iff_data {s t : String} : s = t ↔ s.data = t.data := by
  constructor
  · exact congrArg String.data
  · intro h
    cases s
    cases t
    exact congrArg String.mk h

theorem str_append_empty (s : String) : s ++ "" = s := by
  rw [str_eq_iff_data, str_data_append]
  simp

theorem str_append_ne_left (s t : String) (h : t ≠ "") : s ++ t ≠ s := by
  intro heq
  apply h
  have hd := congrArg String.data heq
  rw [str_data_append] at hd
  have hlen := congrArg List.length hd
  simp only [List.length_append] at hlen
  rw [str_eq_iff_data]
  simpa using List.length_eq_zero.mp (by omega)

theorem str_append_ne_empty_left (s t : String) (h : s ≠ "") : s ++ t ≠ "" := by
  intro heq
  apply h
  have hd := congrArg String.data heq
  rw [str_data_append] at hd
  rw [str_eq_iff_data]
  simpa using (List.append_eq_nil.mp hd).1

theorem perm_orderedInsertBy (le : α → α → Bool) (a : α) (l : List α) :
    List.Perm (orderedInsertBy le a l) (a :: l) := by
  induction l with
  | nil => simp [orderedInsertBy]
  | cons b t ih =>
      simp only [orderedInsertBy]
      split
      · exact List.Perm.refl _
      · exact (ih.cons b).trans (List.Perm.swap a b t)

theorem perm_insertionSortBy (le : α → α → Bool) (l : List α) :
    List.Perm (insertionSortBy le l) l := by
  induction l with
  | nil => simp [insertionSortBy]
  | cons a t ih => exact (perm_orderedInsertBy le a _).trans (ih.cons a)

theorem lookup_dictErase_self (k : String) (d : List (String × ℚ)) :
    (dictErase k d).lookup k = none := by
  rw [List.lookup_eq_none_iff]
  intro p hp
  have hne : p.1 ≠ k := by simpa using (List.mem_filter.mp hp).2
  simpa using Ne.symm hne

theorem lookup_dictErase_ne (k k' : String) (d : List (String × ℚ)) (h : k' ≠ k) :
    (dictErase k d).lookup k' = d.lookup k' := by
  induction d with
  | nil => rfl
  | cons p t ih =>
      obtain ⟨k₀, v₀⟩ := p
      by_cases hpk : k₀ = k
      · subst hpk
        have hk' : (k' == k₀) = false := beq_eq_false_iff_ne.mpr h
        rw [show dictErase k₀ ((k₀, v₀) :: t) = dictErase k₀ t from by simp [dictErase]]
        rw [List.lookup_cons]
        simp only [hk']
        exact ih
      · rw [show dictErase k ((k₀, v₀) :: t) = (k₀, v₀) :: dictErase k t from by
          simp [dictErase, hpk]]
        rw [List.lookup_cons, List.lookup_cons]
        cases hkk : (k' == k₀)
        · exact ih
        · rfl

theorem eraseIdx_concat (l : List α) (e : α) : (l ++ [e]).eraseIdx l.length = l := by
  induction l with
  | nil => rfl
  | cons a t ih => simpa [List.eraseIdx_cons_succ] using ih

/-- Removing the record just appended at its store index restores the
previous state exactly. -/
theorem remove_expense_concat (st : TrackerState) (e : Expense) :
    (remove_expense { st with expenses := st.expenses ++ [e] }
      (st.expenses.length : Int)).1 = st := by
  have hcond : (0 : Int) ≤ (st.expenses.length : Int) ∧
      (st.expenses.length : Int) < ((st.expenses ++ [e]).length : Int) := by
    simp [List.length_append]
  simp only [remove_expense, if_pos hcond, Int.toNat_natCast, List.getElem?_concat_length,
    eraseIdx_concat]

/-! ### Claim theorems -/

/-- Claim C9: `load_data` returns empty collections (no expenses, no
incomes, an empty budget mapping) whenever the persisted file is missing
or its contents are not valid JSON, and surfaces no error in either case
(the embedding is a total function: both exception branches return the
default collections). -/
theorem spec_C9 :
    load_data .missing = ⟨[], [], []⟩ ∧ load_data .malformed = ⟨[], [], []⟩ :=
  ⟨rfl, rfl⟩

/-- Claim C8: saving via `save_data` and then loading via `load_data`
yields collections identical to the originals: the expense and income
sequences element for element in the same order (including tags), and the
budget mapping equal as a set of category-to-limit pairs. -/
theorem spec_C8 (expenses : List Expense) (budgets : List (String × ℚ))
    (incomes : List Income) :
    (load_data (.content (save_data expenses budgets incomes))).expenses = expenses
    ∧ (∀ p : String × ℚ,
        p ∈ (load_data (.content (save_data expenses budgets incomes))).budgets ↔ p ∈ budgets)
    ∧ (load_data (.content (save_data expenses budgets incomes))).incomes = incomes := by
  have he : Expense.from_dict ∘ Expense.to_dict = id := funext fun e => rfl
  have hi : Income.from_dict ∘ Income.to_dict = id := funext fun i => rfl
  refine ⟨?_, fun p => ?_, ?_⟩ <;>
    simp [load_data, save_data, List.map_map, he, hi, List.map_id]

/-- Claim C3: `calculate_net_savings` returns the triple (current-month
total income, current-month total expenses, their difference); in
particular with incomes `[(3000, Salary, 2025-08-01)]` and expenses
`[(750, Rent, 2025-08-01)]` in the same month it returns
`(3000, 750, 2250)`. -/
theorem spec_C3 :
    (∀ (today : Today) (st : TrackerState),
      calculate_net_savings today st =
        (((st.incomes.filter (fun i => strTake i.date 7 == today.month)).map Income.amount).sum,
         ((st.expenses.filter (fun e => strTake e.date 7 == today.month)).map Expense.amount).sum,
         ((st.incomes.filter (fun i => strTake i.date 7 == today.month)).map Income.amount).sum
           - ((st.expenses.filter (fun e => strTake e.date 7 == today.month)).map
               Expense.amount).sum))
    ∧ calculate_net_savings ⟨"2025", "2025-08"⟩
        ⟨[⟨750, "Rent", "2025-08-01", ""⟩], [], [⟨3000, "Salary", "2025-08-01"⟩]⟩
      = (3000, 750, 2250) := by
  constructor
  · intro today st
    rfl
  · have ht : strTake "2025-08-01" 7 = "2025-08" := by decide
    have h1 : (3000 : ℚ) - 750 = 2250 := by norm_num
    simp [calculate_net_savings, ht, h1]

/-- Claim C7: `_filter_transactions` with period `all` returns the list
unchanged; with `month` keeps exactly the records whose date string begins
with the current `YYYY-MM`, and with `year` those beginning with the
current `YYYY`, preserving the original order (a sublist) in each case. -/
theorem spec_C7 {α : Type} (dateOf : α → String) (today : Today) (records : List α) :
    filter_transactions dateOf today records "all" = records
    ∧ List.Sublist (filter_transactions dateOf today records "month") records
    ∧ (∀ r, r ∈ filter_transactions dateOf today records "month" ↔
        r ∈ records ∧ strStartsWith (dateOf r) today.month = true)
    ∧ List.Sublist (filter_transactions dateOf today records "year") records
    ∧ (∀ r, r ∈ filter_transactions dateOf today records "year" ↔
        r ∈ records ∧ strStartsWith (dateOf r) today.year = true) := by
  refine ⟨rfl, ?_, fun r => ?_, ?_, fun r => ?_⟩ <;>
    simp [filter_transactions, List.filter_sublist, List.mem_filter]

/-- Claim C10: for every `filter_type` other than `all`, `month` and
`year`, `_filter_transactions` returns the input list unchanged — an
unrecognized period never raises an error (the embedding is total) and
never filters anything out. -/
theorem spec_C10 {α : Type} (dateOf : α → String) (today : Today) (records : List α)
    (filter_type : String) (h1 : filter_type ≠ "all") (h2 : filter_type ≠ "month")
    (h3 : filter_type ≠ "year") :
    filter_transactions dateOf today records filter_type = records := by
  have b1 : (filter_type == "all") = false := beq_eq_false_iff_ne.mpr h1
  have b2 : (filter_type == "month") = false := beq_eq_false_iff_ne.mpr h2
  have b3 : (filter_type == "year") = false := beq_eq_false_iff_ne.mpr h3
  simp [filter_transactions, b1, b2, b3]

theorem spec_C10_witness :
    filter_transactions (fun e : Expense => e.date) ⟨"2025", "2025-08"⟩
      [⟨1, "Food", "2025-08-01", ""⟩] "week" = [⟨1, "Food", "2025-08-01", ""⟩] :=
  spec_C10 (fun e : Expense => e.date) ⟨"2025", "2025-08"⟩ _ "week"
    (by decide) (by decide) (by decide)

/-- Claim C6: adding an expense via `add_expense` and then removing it by
its returned index (its position in the store, the previous length of the
expense list) restores the prior total spend reported by
`get_expenses_summary` exactly. -/
theorem spec_C6 (today : Today) (st : TrackerState) (amount : ℚ)
    (category date_str tag : String) :
    (get_expenses_summary
      ((remove_expense (add_expense today st amount category date_str tag).1
        (st.expenses.length : Int)).1)).2
    = (get_expenses_summary st).2 := by
  have h : (add_expense today st amount category date_str tag).1
      = { st with expenses :=
            st.expenses ++ [⟨amount, normalize category, date_str, pyStrip tag⟩] } := rfl
  rw [h, remove_expense_concat]

/-- Claim C5: for every tracker state and integer index, `remove_expense`
(respectively `remove_income`) fails with an invalid-index message and
leaves the whole state unchanged when the index is out of bounds (negative
or at least the sequence length), and otherwise removes exactly the record
at that position, leaves all other records in order, and reports the
removed record.  Each conjunct carries its own bounds hypothesis, so every
case applies to any state, empty stores included. -/
theorem spec_C5 (st : TrackerState) (i : Int) :
    ((i < 0 ∨ (st.expenses.length : Int) ≤ i) →
      remove_expense st i = (st, false, "Invalid expense index."))
    ∧ ((i < 0 ∨ (st.incomes.length : Int) ≤ i) →
      remove_income st i = (st, false, "Invalid income index."))
    ∧ ((0 ≤ i ∧ i < (st.expenses.length : Int)) →
      ∃ e, st.expenses[i.toNat]? = some e ∧
        remove_expense st i =
          ({ st with expenses := st.expenses.take i.toNat ++ st.expenses.drop (i.toNat + 1) },
           true,
           "Expense on " ++ e.date ++ " for $" ++ fmtMoney e.amount ++ " (" ++ e.category
             ++ ") removed successfully."))
    ∧ ((0 ≤ i ∧ i < (st.incomes.length : Int)) →
      ∃ inc, st.incomes[i.toNat]? = some inc ∧
        remove_income st i =
          ({ st with incomes := st.incomes.take i.toNat ++ st.incomes.drop (i.toNat + 1) },
           true,
           "Income on " ++ inc.date ++ " from " ++ inc.source ++ " ($" ++ fmtMoney inc.amount
             ++ ") removed successfully.")) := by
  refine ⟨fun hiE => ?_, fun hiI => ?_, fun hjE => ?_, fun hjI => ?_⟩
  · simp only [remove_expense]
    rw [if_neg (by omega)]
  · simp only [remove_income]
    rw [if_neg (by omega)]
  · have hjn : i.toNat < st.expenses.length := by omega
    refine ⟨st.expenses.get ⟨i.toNat, hjn⟩, List.getElem?_eq_getElem hjn, ?_⟩
    simp only [remove_expense]
    rw [if_pos ⟨hjE.1, hjE.2⟩, List.getElem?_eq_getElem hjn,
      List.eraseIdx_eq_take_drop_succ]
    rfl
  · have hjn : i.toNat < st.incomes.length := by omega
    refine ⟨st.incomes.get ⟨i.toNat, hjn⟩, List.getElem?_eq_getElem hjn, ?_⟩
    simp only [remove_income]
    rw [if_pos ⟨hjI.1, hjI.2⟩, List.getElem?_eq_getElem hjn,
      List.eraseIdx_eq_take_drop_succ]
    rfl

theorem spec_C5_witness :
    remove_expense ⟨[], [], []⟩ 0 = (⟨[], [], []⟩, false, "Invalid expense index.")
    ∧ remove_income ⟨[], [], []⟩ 0 = (⟨[], [], []⟩, false, "Invalid income index.")
    ∧ (∃ e, ([⟨20, "Food", "2025-08-01", ""⟩] : List Expense)[(0 : Int).toNat]? = some e ∧
        remove_expense ⟨[⟨20, "Food", "2025-08-01", ""⟩], [], [⟨30, "Salary", "2025-08-02"⟩]⟩ 0 =
          (⟨([⟨20, "Food", "2025-08-01", ""⟩] : List Expense).take (0 : Int).toNat ++
              ([⟨20, "Food", "2025-08-01", ""⟩] : List Expense).drop ((0 : Int).toNat + 1),
            [], [⟨30, "Salary", "2025-08-02"⟩]⟩,
           true,
           "Expense on " ++ e.date ++ " for $" ++ fmtMoney e.amount ++ " (" ++ e.category
             ++ ") removed successfully."))
    ∧ (∃ inc, ([⟨30, "Salary", "2025-08-02"⟩] : List Income)[(0 : Int).toNat]? = some inc ∧
        remove_income ⟨[⟨20, "Food", "2025-08-01", ""⟩], [], [⟨30, "Salary", "2025-08-02"⟩]⟩ 0 =
          (⟨[⟨20, "Food", "2025-08-01", ""⟩],
            [], ([⟨30, "Salary", "2025-08-02"⟩] : List Income).take (0 : Int).toNat ++
              ([⟨30, "Salary", "2025-08-02"⟩] : List Income).drop ((0 : Int).toNat + 1)⟩,
           true,
           "Income on " ++ inc.date ++ " from " ++ inc.source ++ " ($" ++ fmtMoney inc.amount
             ++ ") removed successfully.")) :=
  ⟨(spec_C5 ⟨[], [], []⟩ 0).1 (Or.inr (by decide)),
   (spec_C5 ⟨[], [], []⟩ 0).2.1 (Or.inr (by decide)),
   (spec_C5 ⟨[⟨20, "Food", "2025-08-01", ""⟩], [], [⟨30, "Salary", "2025-08-02"⟩]⟩ 0).2.2.1
     ⟨by decide, by decide⟩,
   (spec_C5 ⟨[⟨20, "Food", "2025-08-01", ""⟩], [], [⟨30, "Salary", "2025-08-02"⟩]⟩ 0).2.2.2
     ⟨by decide, by decide⟩⟩

theorem append_alert_ne_iff (base al : String) :
    (base ++ (if al == "" then "" else " " ++ al)) ≠ base ↔ al ≠ "" := by
  by_cases h : al = ""
  · subst h
    simp [str_append_empty]
  · have hb : (al == "") = false := beq_eq_false_iff_ne.mpr h
    simp only [hb, Bool.false_eq_true, if_false]
    exact iff_of_true
      (str_append_ne_left _ _ (str_append_ne_empty_left " " al (by decide))) h

theorem add_expense_alert_ne_iff (today : Today) (budgets : List (String × ℚ))
    (expenses : List Expense) (cc : String) :
    add_expense_alert today budgets expenses cc ≠ "" ↔
      ∃ limit, budgets.lookup cc = some limit ∧
        limit < get_category_spending today expenses cc := by
  cases hl : budgets.lookup cc with
  | none => simp [add_expense_alert, hl]
  | some limit =>
      simp only [add_expense_alert, hl]
      by_cases hlt : limit < get_category_spending today expenses cc
      · rw [if_pos hlt]
        constructor
        · intro _
          exact ⟨limit, rfl, hlt⟩
        · intro _
          repeat' apply str_append_ne_empty_left
          decide
      · rw [if_neg hlt]
        simp [hlt]

/-- Claim C2: `add_expense` appends the expense (with category normalized
and tag trimmed) and returns a budget-alert message if and only if the
month-to-date spend for that category, computed after adding, exceeds its
configured limit; in particular, with budget (Food, 50) set, adding
expense (100, food, 2025-08-01) returns a message whose alert reports
spend exceeding the budget of 50.00 dollars by 50.00 dollars. -/
theorem spec_C2 :
    (∀ (today : Today) (st : TrackerState) (amount : ℚ) (category date_str tag : String),
      (add_expense today st amount category date_str tag).1
        = { st with expenses :=
              st.expenses ++ [⟨amount, normalize category, date_str, pyStrip tag⟩] })
    ∧ (∀ (today : Today) (st : TrackerState) (amount : ℚ) (category date_str tag : String),
      (add_expense today st amount category date_str tag).2.2 ≠ "Expense added successfully."
        ↔ ∃ limit, st.budgets.lookup (normalize category) = some limit
            ∧ limit < get_category_spending today
                (st.expenses ++ [⟨amount, normalize category, date_str, pyStrip tag⟩])
                (normalize category))
    ∧ add_expense ⟨"2025", "2025-08"⟩ (set_budget (ExpenseTracker.init .missing) "Food" 50).1
        100 "food" "2025-08-01" ""
      = (⟨[⟨100, "Food", "2025-08-01", ""⟩], [("Food", 50)], []⟩, true,
         "Expense added successfully. 🚨 BUDGET ALERT: Spending in Food exceeds budget of $50.00 by $50.00!") := by
  refine ⟨fun _ _ _ _ _ _ => rfl, fun today st amount category date_str tag => ?_, ?_⟩
  · have hmsg : (add_expense today st amount category date_str tag).2.2
        = "Expense added successfully."
          ++ (if add_expense_alert today st.budgets
                (st.expenses ++ [⟨amount, normalize category, date_str, pyStrip tag⟩])
                (normalize category) == "" then ""
              else " " ++ add_expense_alert today st.budgets
                (st.expenses ++ [⟨amount, normalize category, date_str, pyStrip tag⟩])
                (normalize category)) := rfl
    rw [hmsg]
    exact (append_alert_ne_iff _ _).trans (add_expense_alert_ne_iff _ _ _ _)
  · have hn : normalize "food" = "Food" := by decide
    have hm : normalize "Food" = "Food" := by decide
    have hp : pyStrip "" = "" := by decide
    have ht : strTake "2025-08-01" 7 = "2025-08" := by decide
    have h1 : (100 : ℚ) - 50 = 50 := by norm_num
    have hlt : (50 : ℚ) < 100 := by norm_num
    have hf : fmtMoney 50 = "50.00" := by decide
    simp [add_expense, add_expense_alert, set_budget, ExpenseTracker.init, load_data,
      dictInsert, get_category_spending, List.lookup, hn, hm, hp, ht, h1, hlt, hf]

/-- Claim C4: `delete_category` removes exactly the expenses whose stored
category equals the normalization of the argument, removes the budget
entry for that normalized category if one exists, leaves incomes and all
other budgets unchanged, and returns failure if and only if no expense
matched and no budget entry existed (in which case the state is
unchanged). -/
theorem spec_C4 (st : TrackerState) (category_name : String) :
    (delete_category st category_name).1.expenses
      = st.expenses.filter (fun e => e.category != normalize category_name)
    ∧ (delete_category st category_name).1.incomes = st.incomes
    ∧ (delete_category st category_name).1.budgets.lookup (normalize category_name) = none
    ∧ (∀ k, k ≠ normalize category_name →
        (delete_category st category_name).1.budgets.lookup k = st.budgets.lookup k)
    ∧ ((delete_category st category_name).2.1 = false ↔
        (∀ e ∈ st.expenses, e.category ≠ normalize category_name)
          ∧ st.budgets.lookup (normalize category_name) = none)
    ∧ ((delete_category st category_name).2.1 = false →
        (delete_category st category_name).1 = st) := by
  have h1 : (delete_category st category_name).1
      = ⟨st.expenses.filter (fun e => e.category != normalize category_name),
         if (st.budgets.lookup (normalize category_name)).isSome then
           dictErase (normalize category_name) st.budgets
         else st.budgets,
         st.incomes⟩ := by
    simp only [delete_category]
    split <;> rfl
  have hfl : (st.expenses.filter (fun e => e.category != normalize category_name)).length
      ≤ st.expenses.length := List.length_filter_le _ _
  have hiff : (delete_category st category_name).2.1 = false ↔
      (∀ e ∈ st.expenses, e.category ≠ normalize category_name)
        ∧ st.budgets.lookup (normalize category_name) = none := by
    simp only [delete_category]
    split
    · rename_i hcond
      simp only [Bool.and_eq_true, beq_iff_eq, Bool.not_eq_true'] at hcond
      obtain ⟨hzero, hnb⟩ := hcond
      refine iff_of_true rfl ⟨fun e he => ?_, ?_⟩
      · have hlen : (st.expenses.filter
            (fun e => e.category != normalize category_name)).length
            = st.expenses.length := by omega
        have heq := (List.filter_sublist st.expenses).eq_of_length hlen
        simpa using (List.filter_eq_self.mp heq) e he
      · cases hl : st.budgets.lookup (normalize category_name) with
        | none => rfl
        | some v => rw [hl] at hnb; cases hnb
    · rename_i hcond
      refine iff_of_false (by simp) ?_
      rintro ⟨hall, hnone⟩
      apply hcond
      rw [Bool.and_eq_true, Bool.not_eq_true']
      have heq : st.expenses.filter (fun e => e.category != normalize category_name)
          = st.expenses :=
        List.filter_eq_self.mpr (fun e he => by simpa using hall e he)
      refine ⟨?_, by simp [hnone]⟩
      rw [heq]
      simp
  refine ⟨by rw [h1], by rw [h1], ?_, fun k hk => ?_, hiff, fun hfalse => ?_⟩
  · rw [h1]
    cases hl : st.budgets.lookup (normalize category_name) with
    | none => simp [hl]
    | some v =>
        simp only [hl, Option.isSome_some, if_true]
        exact lookup_dictErase_self _ _
  · rw [h1]
    cases hl : st.budgets.lookup (normalize category_name) with
    | none => simp [hl]
    | some v =>
        simp only [hl, Option.isSome_some, if_true]
        exact lookup_dictErase_ne _ _ _ hk
  · obtain ⟨hall, hnone⟩ := hiff.mp hfalse
    rw [h1]
    have heq : st.expenses.filter (fun e => e.category != normalize category_name)
        = st.expenses :=
      List.filter_eq_self.mpr (fun e he => by simpa using hall e he)
    rw [heq, hnone]
    rfl

theorem spec_C4_witness :
    (delete_category ⟨[], [("Other", 1)], []⟩ "x").1.budgets.lookup "Other"
      = (⟨[], [("Other", 1)], []⟩ : TrackerState).budgets.lookup "Other"
    ∧ (delete_category ⟨[], [("Other", 1)], []⟩ "x").1 = ⟨[], [("Other", 1)], []⟩ :=
  ⟨(spec_C4 ⟨[], [("Other", 1)], []⟩ "x").2.2.2.1 "Other" (by decide),
   (spec_C4 ⟨[], [("Other", 1)], []⟩ "x").2.2.2.2.2 (by decide)⟩

theorem budget_row_category (t : Today) (s : TrackerState) (c : String) :
    (budget_row t s c).category = c := by
  simp only [budget_row]
  split_ifs <;> rfl

theorem report_map_category (t : Today) (s : TrackerState) :
    (get_budget_report t s).map BudgetRow.category = report_categories t s := by
  rw [get_budget_report, List.map_map]
  have h : BudgetRow.category ∘ budget_row t s = id :=
    funext fun c => budget_row_category t s c
  rw [h, List.map_id]

theorem budget_row_spec (t : Today) (s : TrackerState) (c : String) :
    (budget_row t s c).budget = (s.budgets.lookup c).getD 0
    ∧ (budget_row t s c).spent = get_category_spending t s.expenses c
    ∧ (budget_row t s c).remaining = (budget_row t s c).budget - (budget_row t s c).spent
    ∧ ((budget_row t s c).status = "OVER BUDGET" ↔
        (budget_row t s c).budget < (budget_row t s c).spent ∧ 0 < (budget_row t s c).budget)
    ∧ ((budget_row t s c).status = "NO BUDGET SET" ↔ (budget_row t s c).budget = 0)
    ∧ ((budget_row t s c).status = "On Track" ↔
        ¬((budget_row t s c).budget < (budget_row t s c).spent
            ∧ 0 < (budget_row t s c).budget)
          ∧ (budget_row t s c).budget ≠ 0) := by
  simp only [budget_row]
  split_ifs with h1 h2
  · exact ⟨rfl, rfl, rfl, by simp [h1], by simp [ne_of_gt h1.2], by simp [h1]⟩
  · exact ⟨rfl, rfl, rfl, by simp [h1], by simp [h2], by simp [h2]⟩
  · exact ⟨rfl, rfl, rfl, by simp [h1], by simp [h2], by simp [h1, h2]⟩

/-- Claim C1: `get_budget_report` returns one entry per category in the
union of budgeted categories and categories with current-month spending,
each with `remaining = budget - spent` (a category with no configured
budget is treated as budget 0), with status OVER BUDGET iff current-month
spend strictly exceeds a positive configured limit, NO BUDGET SET iff the
budget is 0, and On Track otherwise. -/
theorem spec_C1 (today : Today) (st : TrackerState) :
    ((get_budget_report today st).map BudgetRow.category).Nodup
    ∧ (∀ c : String,
        c ∈ (get_budget_report today st).map BudgetRow.category ↔
          (c ∈ st.budgets.map Prod.fst ∨
           ∃ e ∈ st.expenses, strTake e.date 7 = today.month ∧ e.category = c))
    ∧ (∀ row ∈ get_budget_report today st,
        row.budget = (st.budgets.lookup row.category).getD 0
        ∧ row.spent = get_category_spending today st.expenses row.category
        ∧ row.remaining = row.budget - row.spent
        ∧ (row.status = "OVER BUDGET" ↔ row.budget < row.spent ∧ 0 < row.budget)
        ∧ (row.status = "NO BUDGET SET" ↔ row.budget = 0)
        ∧ (row.status = "On Track" ↔
            ¬(row.budget < row.spent ∧ 0 < row.budget) ∧ row.budget ≠ 0)) := by
  refine ⟨?_, fun c => ?_, fun row hrow => ?_⟩
  · rw [report_map_category, report_categories]
    exact ((perm_insertionSortBy _ _).nodup_iff).mpr (List.nodup_dedup _)
  · rw [report_map_category, report_categories,
      List.Perm.mem_iff (perm_insertionSortBy _ _), List.mem_dedup, List.mem_append]
    apply or_congr Iff.rfl
    simp only [spendingCategories, List.mem_map, List.mem_filter, beq_iff_eq]
    constructor
    · rintro ⟨e, ⟨hmem, hmonth⟩, hcat⟩
      exact ⟨e, hmem, hmonth, hcat⟩
    · rintro ⟨e, hmem, hmonth, hcat⟩
      exact ⟨e, ⟨hmem, hmonth⟩, hcat⟩
  · rw [get_budget_report] at hrow
    obtain ⟨c, hc, hrfl⟩ := List.mem_map.mp hrow
    subst hrfl
    simpa [budget_row_category] using budget_row_spec today st c

theorem spec_C1_witness :
    ((get_budget_report ⟨"2025", "2025-08"⟩ ⟨[], [("Food", 50)], []⟩).map
      BudgetRow.category).Nodup
    ∧ ((⟨"Food", 50, 0, 50, "On Track", "positive"⟩ : BudgetRow).status = "On Track" ↔
        ¬((⟨"Food", 50, 0, 50, "On Track", "positive"⟩ : BudgetRow).budget
              < (⟨"Food", 50, 0, 50, "On Track", "positive"⟩ : BudgetRow).spent
            ∧ 0 < (⟨"Food", 50, 0, 50, "On Track", "positive"⟩ : BudgetRow).budget)
          ∧ (⟨"Food", 50, 0, 50, "On Track", "positive"⟩ : BudgetRow).budget ≠ 0) := by
  refine ⟨(spec_C1 ⟨"2025", "2025-08"⟩ ⟨[], [("Food", 50)], []⟩).1, ?_⟩
  have hb1 : ¬((50 : ℚ) < 0) := by norm_num
  have hb2 : (50 : ℚ) ≠ 0 := by norm_num
  have h := (spec_C1 ⟨"2025", "2025-08"⟩ ⟨[], [("Food", 50)], []⟩).2.2
    (⟨"Food", 50, 0, 50, "On Track", "positive"⟩ : BudgetRow)
    (by simp [get_budget_report, report_categories, budget_row, get_category_spending,
      spendingCategories, insertionSortBy, orderedInsertBy, sub_zero, hb1, hb2])
  exact h.2.2.2.2.2


end WebTracker
